import Mathlib

/-!
Verification development for the JaaS audio-ingestion and analysis pipeline.

The definitions below are a shallow embedding of the TypeScript source:

* `supabase/functions/analyze/index.ts` — the processing pipeline (entry
  guard, transcription, analysis, embedding, context selection).
* `supabase/functions/ingest/index.ts` — the legacy webhook handler with a
  single global Dropbox cursor.
* `supabase/functions/_shared/dropbox-auth.ts` — the `DropboxAuth`
  credential vault, together with the OAuth per-user webhook handler that
  is bundled in the same file.

External services (Dropbox, OpenAI, OpenRouter, blob storage) are modelled
as oracles supplied through an environment record; the durable store is
threaded explicitly as state.  Timestamps are integers (milliseconds since
the epoch), numeric scores are rationals.
-/

namespace JaaS

/-! ### String helpers mirroring the JavaScript string operations used -/

/-- JavaScript whitespace test used by `String.prototype.trim` (restricted
to the ASCII whitespace actually relevant here). -/
def isWsChar (c : Char) : Bool :=
  c = ' ' || c = '\n' || c = '\t' || c = '\r'

/-- Model of `text.toLowerCase()`. -/
def strToLower (s : String) : String :=
  String.mk (s.toList.map Char.toLower)

/-- Index of the first occurrence of `pat` in the remaining list (also the
worker for substring search in the extraction step below). -/
def findSubAux (pat : List Char) : List Char → Nat → Option Nat
  | [], i => if pat.isEmpty then some i else none
  | c :: t, i =>
    if pat.isPrefixOf (c :: t) then some i else findSubAux pat t (i + 1)

/-- Index of the first occurrence of `pat` in `hay`. -/
def findSub (hay pat : List Char) : Option Nat := findSubAux pat hay 0

/-- Model of `s.includes(sub)`. -/
def strIncludes (s sub : String) : Bool :=
  (findSub s.toList sub.toList).isSome

/-- Model of `s.endsWith(suf)`. -/
def strEndsWith (s suf : String) : Bool :=
  suf.toList.isSuffixOf s.toList

/-- Model of `s.trim()`. -/
def strTrim (s : String) : String :=
  String.mk (((s.toList.dropWhile isWsChar).reverse.dropWhile isWsChar).reverse)

/-! ### JSON values and a model of the platform's strict `JSON.parse`

The pipeline calls the JavaScript built-in `JSON.parse`, which accepts a
complete JSON document and throws on any trailing garbage.  We model JSON
values with rational numbers and a fuel-indexed recursive-descent parser;
`\uXXXX` escapes are not modelled (no theorem below depends on them). -/

inductive Json where
  | null
  | bool (b : Bool)
  | num (q : ℚ)
  | str (s : String)
  | arr (elems : List Json)
  | obj (fields : List (String × Json))

/-- Skip JSON whitespace. -/
def skipWs : List Char → List Char
  | [] => []
  | c :: cs => if isWsChar c then skipWs cs else c :: cs

/-- Consume a run of decimal digits, returning (value, digit count, rest). -/
def takeDigits : List Char → Nat → Nat → Nat × Nat × List Char
  | c :: cs, acc, n =>
    if c.isDigit then takeDigits cs (acc * 10 + (c.toNat - 48)) (n + 1)
    else (acc, n, c :: cs)
  | [], acc, n => (acc, n, [])

def applySign (neg : Bool) (q : ℚ) : ℚ := if neg then -q else q

/-- Numeric value of a parsed JSON number. -/
def mkNum (neg : Bool) (ip frac fdigits : Nat) (ex : Int) : ℚ :=
  applySign neg (((ip : ℚ) + (frac : ℚ) / (10 : ℚ) ^ fdigits) * (10 : ℚ) ^ ex)

/-- Parse a JSON number literal. -/
def parseNum (cs : List Char) : Option (ℚ × List Char) :=
  let p := match cs with
    | '-' :: rest => (true, rest)
    | _ => (false, cs)
  match takeDigits p.2 0 0 with
  | (_, 0, _) => none
  | (ip, _, cs2) =>
    let q := match cs2 with
      | '.' :: rest =>
        match takeDigits rest 0 0 with
        | (_, 0, _) => (0, 0, '.' :: rest)
        | (f, n, rest2) => (f, n, rest2)
      | _ => (0, 0, cs2)
    match q with
    | (frac, fdigits, cs3) =>
      match cs3 with
      | 'e' :: r | 'E' :: r =>
        let e := match r with
          | '-' :: r2 => (true, r2)
          | '+' :: r2 => (false, r2)
          | _ => (false, r)
        match takeDigits e.2 0 0 with
        | (_, 0, _) => none
        | (ex, _, cs4) =>
          some (mkNum p.1 ip frac fdigits (if e.1 then -(ex : Int) else (ex : Int)), cs4)
      | _ => some (mkNum p.1 ip frac fdigits 0, cs3)

/-- Parse the body of a JSON string (after the opening quote). -/
def parseStringBody (fuel : Nat) (cs : List Char) (acc : List Char) :
    Option (String × List Char) :=
  match fuel, cs with
  | 0, _ => none
  | _, [] => none
  | f + 1, c :: rest =>
    if c = '"' then some (String.mk acc.reverse, rest)
    else if c = '\\' then
      match rest with
      | [] => none
      | e :: rest2 =>
        let ec : Option Char :=
          if e = '"' then some '"'
          else if e = '\\' then some '\\'
          else if e = '/' then some '/'
          else if e = 'n' then some '\n'
          else if e = 't' then some '\t'
          else if e = 'r' then some '\r'
          else if e = 'b' then some (Char.ofNat 8)
          else if e = 'f' then some (Char.ofNat 12)
          else none
        match ec with
        | some d => parseStringBody f rest2 (d :: acc)
        | none => none
    else parseStringBody f rest (c :: acc)

/-- Consume an exact keyword. -/
def expectToken (cs tok : List Char) : Option (List Char) :=
  if tok.isPrefixOf cs then some (cs.drop tok.length) else none

/-- Parser mode: a whole value, the members of an object after `{`, or the
elements of an array after `[`. -/
inductive PMode where
  | val
  | members (acc : List (String × Json)) (first : Bool)
  | elems (acc : List Json) (first : Bool)

/-- One fuel-indexed step of the recursive-descent parser; structural
recursion on the fuel keeps the definition kernel-reducible. -/
def parseStep : Nat → PMode → List Char → Option (Json × List Char)
  | 0, _, _ => none
  | f + 1, .val, cs =>
    match skipWs cs with
    | [] => none
    | c :: rest =>
      if c = '{' then parseStep f (.members [] true) (skipWs rest)
      else if c = '[' then parseStep f (.elems [] true) (skipWs rest)
      else if c = '"' then
        (parseStringBody (rest.length + 1) rest []).map fun p => (Json.str p.1, p.2)
      else if c = 't' then
        (expectToken rest ['r', 'u', 'e']).map fun r => (Json.bool true, r)
      else if c = 'f' then
        (expectToken rest ['a', 'l', 's', 'e']).map fun r => (Json.bool false, r)
      else if c = 'n' then
        (expectToken rest ['u', 'l', 'l']).map fun r => (Json.null, r)
      else (parseNum (c :: rest)).map fun p => (Json.num p.1, p.2)
  | f + 1, .members acc first, cs =>
    match cs with
    | '}' :: rest => if first then some (Json.obj acc.reverse, rest) else none
    | '"' :: rest =>
      match parseStringBody (rest.length + 1) rest [] with
      | none => none
      | some (k, r1) =>
        match skipWs r1 with
        | ':' :: r2 =>
          match parseStep f .val r2 with
          | none => none
          | some (v, r3) =>
            match skipWs r3 with
            | ',' :: r4 => parseStep f (.members ((k, v) :: acc) false) (skipWs r4)
            | '}' :: r4 => some (Json.obj ((k, v) :: acc).reverse, r4)
            | _ => none
        | _ => none
    | _ => none
  | f + 1, .elems acc first, cs =>
    match cs, first with
    | ']' :: rest, true => some (Json.arr acc.reverse, rest)
    | _, _ =>
      match parseStep f .val cs with
      | none => none
      | some (v, r1) =>
        match skipWs r1 with
        | ',' :: r2 => parseStep f (.elems (v :: acc) false) (skipWs r2)
        | ']' :: r2 => some (Json.arr (v :: acc).reverse, r2)
        | _ => none

/-- Model of the strict JavaScript `JSON.parse`: the whole input must be a
single JSON document (up to surrounding whitespace), else failure. -/
def jsonParse (s : String) : Option Json :=
  let cs := s.toList
  match parseStep (cs.length + 8) .val cs with
  | some (v, rest) => if (skipWs rest).isEmpty then some v else none
  | none => none

/-! ### JSON extraction from the generative-analysis response body

`analyze/index.ts` selects the substring to parse with
`analysisText.match(/```json\n([\s\S]*?)\n```/) || analysisText.match(/\{[\s\S]*\}/)`,
falling back to the whole body, and then runs a single `JSON.parse` on the
selected substring. -/

def openFence : List Char := '`' :: '`' :: '`' :: 'j' :: 's' :: 'o' :: 'n' :: '\n' :: []

def closeFence : List Char := '\n' :: '`' :: '`' :: '`' :: []

/-- The lazy fenced-block regex `/```json\n([\s\S]*?)\n```/`; mirrors
`jsonMatch[1] || jsonMatch[0]`, so an empty capture group falls back to the
whole match. -/
def fencedSelect (cs : List Char) : Option (List Char) :=
  match findSub cs openFence with
  | none => none
  | some i =>
    let content := cs.drop (i + 8)
    match findSub content closeFence with
    | none => none
    | some k =>
      let group := content.take k
      if group.isEmpty then some ((cs.drop i).take (8 + k + 4)) else some group

/-- The greedy regex `/\{[\s\S]*\}/`: the span from the first `{` that is
followed by some `}` up to the last `}` of the whole text. -/
def greedySelect (cs : List Char) : Option (List Char) :=
  match findSub cs ['{'], findSub cs.reverse ['}'] with
  | some i, some rj =>
    let j := cs.length - 1 - rj
    if i < j then some ((cs.drop i).take (j - i + 1)) else none
  | _, _ => none

/-- Substring handed to `JSON.parse` by the analysis step. -/
def selectJsonStr (s : String) : String :=
  match fencedSelect s.toList with
  | some g => String.mk g
  | none =>
    match greedySelect s.toList with
    | some m => String.mk m
    | none => s

/-- JSON extraction as implemented: regex selection, then one strict parse. -/
def extractAnalysisJson (s : String) : Option Json :=
  jsonParse (selectJsonStr s)

/-- Depth-counting scan for the matching `}` of an already-seen `{`. -/
def balancedScan : Nat → List Char → List Char → Option (List Char)
  | _, _, [] => none
  | depth, acc, c :: rest =>
    if c = '{' then balancedScan (depth + 1) (c :: acc) rest
    else if c = '}' then
      if depth = 1 then some (c :: acc).reverse
      else balancedScan (depth - 1) (c :: acc) rest
    else balancedScan depth (c :: acc) rest

/-- The outermost balanced `{...}` span of the text, if any. -/
def balancedSpan : List Char → Option (List Char)
  | [] => none
  | c :: rest => if c = '{' then balancedScan 1 [c] rest else balancedSpan rest

/-- The extraction procedure as the specification describes it: a strict
parse of the full body first, then on failure a scan for the outermost
balanced `{...}` span.  This definition follows the spec's words and exists
to be compared with `extractAnalysisJson`, which follows the source. -/
def specTwoStageExtract (s : String) : Option Json :=
  match jsonParse s with
  | some v => some v
  | none =>
    match balancedSpan s.toList with
    | some span => jsonParse (String.mk span)
    | none => none

/-! ### The core data model (§3 of the spec; `dreams` table) -/

inductive DreamStatus where
  | uploaded
  | transcribing
  | analyzing
  | complete
  | failed
deriving DecidableEq, Repr

/-- One row of the `dreams` table, as read and written by the core. -/
structure Dream where
  userId : Option String
  audioPath : String
  dropboxPath : Option String
  dropboxModifiedTime : Option String
  source : String
  transcript : Option String
  analysis : Option Json
  embedding : Option (List ℚ)
  status : DreamStatus
  errorMessage : Option String
  processingAttempts : Nat

/-- The Record invariants stated in the spec: the attempt counter never
exceeds the max of 3, `complete` implies non-null transcript and analysis,
`failed` implies non-null error detail. -/
def recordInvariant (d : Dream) : Prop :=
  d.processingAttempts ≤ 3
    ∧ (d.status = .complete → d.transcript.isSome ∧ d.analysis.isSome)
    ∧ (d.status = .failed → d.errorMessage.isSome)

/-- The part of the Record invariants the pipeline preserves
unconditionally: the attempt counter stays ≤ 3, `complete` implies a
non-null transcript, and `failed` implies a non-null error detail.
(`complete` implies non-null analysis is *not* unconditional — see the
JSON-null case in `Analyze.analysisPhase`.) -/
def recordInvariantCore (d : Dream) : Prop :=
  d.processingAttempts ≤ 3
    ∧ (d.status = .complete → d.transcript.isSome)
    ∧ (d.status = .failed → d.errorMessage.isSome)

/-- A Dropbox change-list entry as consumed by the webhook handlers. -/
structure Entry where
  tag : String
  name : String
  pathLower : String
  serverModified : String
deriving DecidableEq, Repr

/-! ### CredentialVault — `DropboxAuth.getValidAccessToken` -/

/-- One row of the `dropbox_tokens` table.  Expiry is in epoch
milliseconds; `none` models a SQL NULL (a non-expiring token). -/
structure TokenRecord where
  accessToken : String
  refreshToken : Option String
  expiresAt : Option Int
deriving DecidableEq, Repr

/-- The provider's response to a refresh-token exchange
(`expiresIn` in seconds, as in the OAuth response body). -/
structure RefreshGrant where
  accessToken : String
  refreshToken : Option String
  expiresIn : Option Int
deriving DecidableEq, Repr

/-- `DropboxAuth.getValidAccessToken`: `stored` is the user's token row,
`now` the current epoch milliseconds, and `grant` the provider's answer to
a refresh-token exchange (`none` = the exchange is rejected).  Returns the
result, whether a refresh exchange was attempted, and the replacement
token row written back to the store (if any). -/
def getValidAccessToken (stored : Option TokenRecord) (now : Int)
    (grant : Option RefreshGrant) :
    Except String String × Bool × Option TokenRecord :=
  match stored with
  | none => (.error "No Dropbox token found. User needs to reauthorize.", false, none)
  | some tr =>
    let isExpired :=
      match tr.expiresAt with
      | some e => decide (e ≤ now + 5 * 60 * 1000)
      | none => false
    if !isExpired then (.ok tr.accessToken, false, none)
    else
      match tr.refreshToken with
      | none =>
        (.error "Token expired and no refresh token available. User needs to reauthorize.",
          false, none)
      | some rt =>
        match grant with
        | none => (.error "Failed to refresh token. User needs to reauthorize.", true, none)
        | some g =>
          let expiresAt := g.expiresIn.map fun s => now + s * 1000
          let updated : TokenRecord :=
            { accessToken := g.accessToken
              refreshToken := match g.refreshToken with
                | some r => some r
                | none => some rt
              expiresAt := expiresAt }
          (.ok g.accessToken, true, some updated)

/-! ### ProcessingPipeline — the `analyze` edge function

The handler is modelled from the point where the `dreams` row has been
fetched.  External calls and store writes are recorded as an ordered event
trace; the environment supplies the outcome of every external call.
Writes to the `recurring_motifs` table after a successful completion touch
a different entity and are outside this trace. -/

inductive ExtService where
  | storageDownload
  | transcription
  | generation
  | embeddingSvc
deriving DecidableEq, Repr

namespace Analyze

structure Env where
  hasOpenRouterKey : Bool
  hasOpenAIKey : Bool
  downloadOk : Bool
  transcribeOk : Bool
  transcribeText : String
  generationOk : Bool
  generationBody : String
  embeddingOk : Bool
  embeddingVec : List ℚ

inductive Event where
  | write (r : Dream)
  | call (s : ExtService)

structure Outcome where
  httpStatus : Nat
  events : List Event

/-- The `status: 'failed', error_message: msg` update. -/
def failWith (d : Dream) (msg : String) : Dream :=
  { d with status := .failed, errorMessage := some msg }

/-- Step 3 of the handler: the generative-analysis call, JSON extraction,
the (non-fatal) embedding call, and the `complete` update.

If the extracted document is the JSON literal `null`, `JSON.parse`
succeeds with JS `null` and the `complete` update serializes it to a SQL
NULL `analysis` column — the row is marked `complete` with a null
analysis.  Immediately afterwards `updateRecurringMotifs` dereferences
`analysis.symbols` on `null`, throws, and the surrounding catch flips the
row to `failed`; the `complete`-with-NULL write has still happened. -/
def analysisPhase (env : Env) (d : Dream) : Outcome :=
  if ¬ env.generationOk then
    ⟨500, [.call .generation, .write (failWith d "Analysis failed: request error")]⟩
  else
    match extractAnalysisJson env.generationBody with
    | none =>
      ⟨500, [.call .generation,
        .write (failWith d "Analysis failed: Failed to parse analysis result")]⟩
    | some Json.null =>
      ⟨500, [.call .generation, .call .embeddingSvc,
        .write { d with
          analysis := none
          embedding := if env.embeddingOk then some env.embeddingVec else none
          status := .complete },
        .write (failWith
          { d with
            analysis := none
            embedding := if env.embeddingOk then some env.embeddingVec else none
            status := .complete }
          "Analysis failed: Cannot read properties of null (reading 'symbols')")]⟩
    | some a =>
      let emb := if env.embeddingOk then some env.embeddingVec else none
      ⟨200, [.call .generation, .call .embeddingSvc,
        .write { d with analysis := some a, embedding := emb, status := .complete }]⟩

/-- Step 1 of the handler: transcribe when the row has no transcript yet,
then hand over to the analysis phase. -/
def transcriptionPhase (env : Env) (d : Dream) : Outcome :=
  match d.transcript with
  | some _ => analysisPhase env d
  | none =>
    let d2 : Dream := { d with status := .transcribing }
    let pre : List Event := [.write d2, .call .storageDownload]
    if ¬ env.downloadOk then
      ⟨500, pre ++ [.write (failWith d2 "Transcription failed: download error")]⟩
    else if ¬ env.hasOpenAIKey then
      ⟨500, pre ++ [.write (failWith d2
        "Transcription failed: OpenAI API key is required for Whisper transcription")]⟩
    else if ¬ env.transcribeOk then
      ⟨500, pre ++ [.call .transcription,
        .write (failWith d2 "Transcription failed: request error")]⟩
    else if strTrim env.transcribeText = "" then
      ⟨500, pre ++ [.call .transcription,
        .write (failWith d2 "Transcription failed: Empty transcription result")]⟩
    else
      let d3 : Dream := { d2 with transcript := some env.transcribeText, status := .analyzing }
      let o := analysisPhase env d3
      ⟨o.httpStatus, pre ++ [.call .transcription, .write d3] ++ o.events⟩

/-- The handler body for a fetched `dreams` row: the entry guard (already
`complete` → no-op; attempt counter at the max of 3 → direct `failed`),
then the increment-and-mark update, the configuration check, and the
processing phases. -/
def analyzeDream (env : Env) (dream : Dream) : Outcome :=
  if dream.status = .complete then ⟨200, []⟩
  else if 3 ≤ dream.processingAttempts then
    ⟨429, [.write (failWith dream "Maximum processing attempts exceeded")]⟩
  else
    let d1 : Dream :=
      { dream with status := .analyzing, processingAttempts := dream.processingAttempts + 1 }
    let o :=
      if ¬ env.hasOpenRouterKey then
        ⟨500, [.write (failWith d1 "Missing OPENROUTER_API_KEY configuration")]⟩
      else transcriptionPhase env d1
    ⟨o.httpStatus, .write d1 :: o.events⟩

end Analyze

/-! ### ContextSelector — `selectRelevantDreams` / `filterActiveMotifs`

Candidate rows come from
`select transcript, analysis, created_at … status = 'complete' … order by created_at desc limit 10`
and motif rows from
`select motif, category, count, confidence_score, last_seen … order by count desc limit 30`;
the in-code selection is then pure.  Timestamps are epoch milliseconds. -/

/-- The `analysis` fields that relevance scoring reads
(`analysis.themes || []` and `analysis.emotions?.primary || []`). -/
structure PastAnalysis where
  themes : List String
  emotionsPrimary : List String
deriving DecidableEq, Repr

/-- A candidate row as selected by the context query. -/
structure PastDream where
  transcript : Option String
  analysis : Option PastAnalysis
  createdAt : Int
deriving DecidableEq, Repr

/-- One row of the `recurring_motifs` table. -/
structure Motif where
  motif : String
  category : Option String
  count : Nat
  confidenceScore : ℚ
  lastSeen : Int
deriving DecidableEq, Repr

/-- `extractKeywords`: the fixed controlled vocabulary of dream themes,
kept in source order by substring containment in the lowercased text. -/
def extractKeywords (text : String) : List String :=
  let lowerText := strToLower text
  ["water", "house", "car", "family", "work", "school", "death", "flying",
   "falling", "chase", "lost", "door", "stairs", "animal", "baby", "wedding",
   "fire", "money", "phone", "mirror"].filter fun theme => strIncludes lowerText theme

/-- `extractEmotionalWords`: the fixed controlled vocabulary of emotional
terms. -/
def extractEmotionalWords (text : String) : List String :=
  let lowerText := strToLower text
  ["scared", "afraid", "happy", "sad", "angry", "excited", "worried", "calm",
   "anxious", "peaceful", "frustrated", "joy", "fear", "love", "hate",
   "confused", "confident", "nervous", "relaxed"].filter fun term =>
    strIncludes lowerText term

/-- `intersection(arr1, arr2)`. -/
def intersection (arr1 arr2 : List String) : List String :=
  arr1.filter fun item => arr2.contains item

/-- `scoreContextRelevance(newTranscript, pastDream)` at time `now`. -/
def scoreContextRelevance (newTranscript : String) (pastDream : PastDream)
    (now : Int) : ℚ :=
  match pastDream.analysis with
  | none => 0
  | some a =>
    let newKeywords := extractKeywords newTranscript
    let pastThemes := a.themes
    let pastEmotions := a.emotionsPrimary
    let sharedThemes := (intersection newKeywords pastThemes).length
    let themeScore : ℚ :=
      (sharedThemes : ℚ) / (max (max newKeywords.length pastThemes.length) 1 : ℚ)
    let newEmotions := extractEmotionalWords newTranscript
    let sharedEmotions := (intersection newEmotions pastEmotions).length
    let emotionScore : ℚ :=
      (sharedEmotions : ℚ) / (max (max newEmotions.length pastEmotions.length) 1 : ℚ)
    let daysSince : Int := (now - pastDream.createdAt).fdiv 86400000
    let recencyScore : ℚ := max 0 ((30 - (daysSince : ℚ)) / 30)
    themeScore * (0.4 : ℚ) + emotionScore * (0.4 : ℚ) + recencyScore * (0.2 : ℚ)

/-- Descending score order used by
`sort((a, b) => b.relevanceScore - a.relevanceScore)`.  JavaScript
`Array.prototype.sort` is stable, so any stable sort models it; we use
insertion sort, which is stable and kernel-computable. -/
def byScoreDesc (a b : PastDream × ℚ) : Prop := b.2 ≤ a.2

instance : DecidableRel byScoreDesc := fun a b =>
  inferInstanceAs (Decidable (b.2 ≤ a.2))

instance : IsTotal (PastDream × ℚ) byScoreDesc := ⟨fun a b => le_total b.2 a.2⟩

instance : IsTrans (PastDream × ℚ) byScoreDesc :=
  ⟨fun _ _ _ h1 h2 => le_trans h2 h1⟩

/-- `selectRelevantDreams`: score every candidate, sort by relevance
descending (stable), keep the top 3. -/
def selectRelevantDreams (transcript : String) (allDreams : List PastDream)
    (now : Int) : List (PastDream × ℚ) :=
  if allDreams.isEmpty then []
  else
    let scoredDreams := allDreams.map fun d => (d, scoreContextRelevance transcript d now)
    (scoredDreams.insertionSort byScoreDesc).take 3

/-- The scored list before sorting (named for the theorems below). -/
def scoredDreams (transcript : String) (allDreams : List PastDream)
    (now : Int) : List (PastDream × ℚ) :=
  allDreams.map fun d => (d, scoreContextRelevance transcript d now)

/-- Descending count order used by the motif store query `order by count desc`. -/
def byCountDesc (a b : Motif) : Prop := b.count ≤ a.count

instance : DecidableRel byCountDesc := fun a b =>
  inferInstanceAs (Decidable (b.count ≤ a.count))

instance : IsTotal Motif byCountDesc := ⟨fun a b => le_total b.count a.count⟩

instance : IsTrans Motif byCountDesc := ⟨fun _ _ _ h1 h2 => le_trans h2 h1⟩

/-- The motif rows as returned by the store query:
sorted by count descending, at most 30. -/
def motifQuery (stored : List Motif) : List Motif :=
  (stored.insertionSort byCountDesc).take 30

/-- `filterActiveMotifs` at time `now`: motifs last seen within 30 days
with count ≥ 1, capped at 8. -/
def filterActiveMotifs (now : Int) (allMotifs : List Motif) : List Motif :=
  if allMotifs.isEmpty then []
  else
    let thirtyDaysAgo := now - 30 * 86400000
    (allMotifs.filter fun m => decide (thirtyDaysAgo < m.lastSeen) && decide (1 ≤ m.count)).take 8

/-! ### Legacy ingest — `ingest/index.ts`

The handler keyed on a single global cursor row (`dropbox_cursor` id 1).
Signature verification runs only when *both* an app secret is configured
and the request carries an `x-dropbox-signature` header; the expected
value is hex-encoded HMAC-SHA256, with an optional `sha256=` marker
stripped from the received header.  `processAudioFile` rethrows on any
failure, which aborts the entry loop before the cursor update. -/

namespace LegacyIngest

structure State where
  dreams : List Dream
  blobs : List String
  cursor : Option String

structure Env where
  listOk : Bool
  listEntries : List Entry
  listCursor : String
  continueOk : Bool
  continueEntries : List Entry
  continueCursor : String
  downloadOk : String → Bool
  uploadOk : String → Bool
  insertOk : String → Bool
  blobName : Entry → String

/-- The `dreams` row inserted by `processAudioFile`. -/
def dreamRecordFor (e : Entry) (fileName : String) : Dream :=
  { userId := none
    audioPath := fileName
    dropboxPath := some e.pathLower
    dropboxModifiedTime := some e.serverModified
    source := "dropbox"
    transcript := none
    analysis := none
    embedding := none
    status := .uploaded
    errorMessage := none
    processingAttempts := 0 }

/-- `processAudioFile`: dedup on `dropbox_path` alone, download, blob
write, insert (with the compensating blob delete on insert failure), and
the non-fatal analyze trigger.  A thrown error is returned as `some msg`
and rethrown by the caller. -/
def processAudioFile (env : Env) (e : Entry) (st : State) : State × Option String :=
  if st.dreams.any (fun d => d.dropboxPath == some e.pathLower) then (st, none)
  else if !env.downloadOk e.pathLower then (st, some "Failed to download file")
  else
    let fileName := env.blobName e
    if !env.uploadOk fileName then (st, some "Failed to upload file")
    else
      let st1 : State := { st with blobs := st.blobs ++ [fileName] }
      if !env.insertOk e.pathLower then
        ({ st1 with blobs := st.blobs }, some "Failed to create dream record")
      else ({ st1 with dreams := st1.dreams ++ [dreamRecordFor e fileName] }, none)

/-- The entry loop: only `.tag === 'file'` entries whose lowercased name
ends in `.m4a` are processed; the first thrown error aborts the loop. -/
def processEntries (env : Env) : List Entry → State → Nat → State × Option String × Nat
  | [], st, n => (st, none, n)
  | e :: es, st, n =>
    if e.tag == "file" && strEndsWith (strToLower e.name) ".m4a" then
      match processAudioFile env e st with
      | (st', some msg) => (st', some msg, n)
      | (st', none) => processEntries env es st' (n + 1)
    else processEntries env es st n

/-- `list_folder/continue` and the final cursor upsert. -/
def continuePhase (env : Env) (st : State) (n : Nat) : State × Option String × Nat :=
  if !env.continueOk then (st, some "Failed to get changes", n)
  else
    match processEntries env env.continueEntries st n with
    | (st', some msg, n') => (st', some msg, n')
    | (st', none, n') => ({ st' with cursor := some env.continueCursor }, none, n')

/-- `processDropboxChanges`: with no stored cursor, take an initial
listing, store its cursor, and process the pre-existing audio files; then
in all cases list changes since the cursor and process them. -/
def processDropboxChanges (env : Env) (st : State) : State × Option String × Nat :=
  match st.cursor with
  | none =>
    if !env.listOk then (st, some "Failed to get initial folder listing", 0)
    else
      let st1 : State := { st with cursor := some env.listCursor }
      match processEntries env env.listEntries st1 0 with
      | (st2, some msg, n) => (st2, some msg, n)
      | (st2, none, n) => continuePhase env st2 n
  | some _ => continuePhase env st 0

/-- The POST branch of the legacy webhook handler.  `hmacHex` models the
hex-encoded HMAC-SHA256 of (secret, body). -/
def postHandler (hmacHex : String → String → String)
    (dropboxAppSecret : Option String) (sig : Option String) (body : String)
    (env : Env) (st : State) : Nat × State :=
  let proceed : Nat × State :=
    match jsonParse body with
    | none => (500, st)
    | some _ =>
      match processDropboxChanges env st with
      | (st', some _, _) => (500, st')
      | (st', none, _) => (200, st')
  match dropboxAppSecret, sig with
  | some secret, some sg =>
    let received :=
      if (['s', 'h', 'a', '2', '5', '6', '='] : List Char).isPrefixOf sg.toList
      then String.mk (sg.toList.drop 7) else sg
    if received ≠ hmacHex secret body then (401, st) else proceed
  | _, _ => proceed

end LegacyIngest

/-! ### OAuth ingest — the per-user webhook handler bundled in `dropbox-auth.ts`

Signature verification is unconditional here: a missing
`x-dropbox-signature` header is rejected with 400 and a mismatch against
the base64-encoded HMAC-SHA256 with 403, both before the store is
touched.  Per-user processing reads the `dropbox_tokens` and
`dropbox_cursor` tables; `processNewAudioFile` catches its own errors, so
a bad file never prevents the cursor update, while an empty change page
returns before the cursor update.  Every store read/write and every
provider call is recorded in an ordered access log. -/

namespace OAuthIngest

inductive Access where
  | readTokens
  | writeTokens (u : String)
  | readCursor (u : String)
  | writeCursor (u c : String)
  | readDreams (u : String)
  | writeBlob (b : String)
  | insertDream (path : String)
  | callDownload (path : String)
  | callLatestCursor (u : String)
  | callListContinue (u : String)
  | callAnalyzeTrigger (path : String)
deriving DecidableEq, Repr

structure State where
  tokens : List (String × TokenRecord)
  cursors : List (String × String)
  dreams : List Dream
  blobs : List String

structure Env where
  now : Int
  refreshGrant : String → Option RefreshGrant
  latestCursorOk : String → Bool
  latestCursor : String → String
  continueOk : String → Bool
  continueEntries : String → List Entry
  continueCursor : String → String
  downloadOk : String → Bool
  uploadOk : String → Bool
  insertOk : String → Bool
  blobName : Entry → String

/-- Keyed row lookup (`.eq('user_id', u).single()`). -/
def lookup {α : Type} (l : List (String × α)) (k : String) : Option α :=
  (l.find? fun p => p.1 == k).map (·.2)

/-- Keyed upsert. -/
def setEntry {α : Type} (l : List (String × α)) (k : String) (v : α) :
    List (String × α) :=
  if l.any (fun p => p.1 == k) then l.map fun p => if p.1 == k then (k, v) else p
  else l ++ [(k, v)]

/-- One call to `DropboxAuth.getValidAccessToken` against the store,
applying the token-row update on refresh. -/
def vaultAccess (env : Env) (u : String) (st : State) :
    Except String String × State × List Access :=
  match getValidAccessToken (lookup st.tokens u) env.now (env.refreshGrant u) with
  | (res, _, none) => (res, st, [.readTokens])
  | (res, _, some tr) =>
    (res, { st with tokens := setEntry st.tokens u tr }, [.readTokens, .writeTokens u])

/-- The `dreams` row inserted by `processNewAudioFile` (`user_id: null`;
`processing_attempts` left to the column default 0). -/
def dreamRecordFor (e : Entry) (fileName : String) : Dream :=
  { userId := none
    audioPath := fileName
    dropboxPath := some e.pathLower
    dropboxModifiedTime := some e.serverModified
    source := "dropbox"
    transcript := none
    analysis := none
    embedding := none
    status := .uploaded
    errorMessage := none
    processingAttempts := 0 }

/-- The per-user duplicate check of `processNewAudioFile`:
`.eq('user_id', userId).eq('dropbox_path', file.path_lower)`. -/
def dedupMatch (userId path : String) (d : Dream) : Bool :=
  d.userId == some userId && d.dropboxPath == some path

/-- `processNewAudioFile`: per-user dedup check, download (through the
vault), blob write, insert, analyze trigger.  All errors are caught and
swallowed inside this function. -/
def processNewAudioFile (env : Env) (userId : String) (file : Entry) (st : State) :
    State × List Access :=
  match st.dreams.find? (dedupMatch userId file.pathLower) with
  | some _ => (st, [.readDreams userId])
  | none =>
    match vaultAccess env userId st with
    | (.error _, st1, log1) => (st1, .readDreams userId :: log1)
    | (.ok _, st1, log1) =>
      if !env.downloadOk file.pathLower then
        (st1, .readDreams userId :: log1 ++ [.callDownload file.pathLower])
      else if !env.uploadOk (env.blobName file) then
        (st1, .readDreams userId :: log1 ++ [.callDownload file.pathLower])
      else if !env.insertOk file.pathLower then
        ({ st1 with blobs := st1.blobs ++ [env.blobName file] },
         .readDreams userId :: log1 ++
           [.callDownload file.pathLower, .writeBlob (env.blobName file)])
      else
        ({ st1 with
            blobs := st1.blobs ++ [env.blobName file]
            dreams := st1.dreams ++ [dreamRecordFor file (env.blobName file)] },
         .readDreams userId :: log1 ++
           [.callDownload file.pathLower, .writeBlob (env.blobName file),
            .insertDream file.pathLower, .callAnalyzeTrigger file.pathLower])

/-- The entry loop: `.tag === 'file'` entries whose name ends in `.m4a`. -/
def processEntries (env : Env) (u : String) : List Entry → State → State × List Access
  | [], st => (st, [])
  | e :: es, st =>
    if e.tag == "file" && strEndsWith e.name ".m4a" then
      let p1 := processNewAudioFile env u e st
      let p2 := processEntries env u es p1.1
      (p2.1, p1.2 ++ p2.2)
    else processEntries env u es st

/-- `processDropboxChanges` for one user: authorization check, cursor
read; with no cursor, fetch and persist a baseline and return without
processing; otherwise list changes, return early on an empty page, else
process every entry and persist the page's cursor. -/
def processDropboxChanges (env : Env) (userId : String) (st : State) :
    State × List Access :=
  match vaultAccess env userId st with
  | (.error _, st1, log1) => (st1, log1)
  | (.ok _, st1, log1) =>
    let log2 := log1 ++ [.readCursor userId]
    match lookup st1.cursors userId with
    | none =>
      match vaultAccess env userId st1 with
      | (.error _, st2, log3) => (st2, log2 ++ log3)
      | (.ok _, st2, log3) =>
        if !env.latestCursorOk userId then
          (st2, log2 ++ log3 ++ [.callLatestCursor userId])
        else
          let c := env.latestCursor userId
          ({ st2 with cursors := setEntry st2.cursors userId c },
           log2 ++ log3 ++ [.callLatestCursor userId, .writeCursor userId c])
    | some _ =>
      match vaultAccess env userId st1 with
      | (.error _, st2, log3) => (st2, log2 ++ log3)
      | (.ok _, st2, log3) =>
        if !env.continueOk userId then
          (st2, log2 ++ log3 ++ [.callListContinue userId])
        else
          let entries := env.continueEntries userId
          let log4 := log2 ++ log3 ++ [.callListContinue userId]
          if entries.isEmpty then (st2, log4)
          else
            let p := processEntries env userId entries st2
            let c := env.continueCursor userId
            ({ p.1 with cursors := setEntry p.1.cursors userId c },
             log4 ++ p.2 ++ [.writeCursor userId c])

/-- The sequential per-user loop of the handler (per-user errors are
caught; the model's sync is total). -/
def processUsers (env : Env) : List String → State → State × List Access
  | [], st => (st, [])
  | u :: us, st =>
    let p1 := processDropboxChanges env u st
    let p2 := processUsers env us p1.1
    (p2.1, p1.2 ++ p2.2)

/-- The POST branch of the OAuth webhook handler.  `hmacB64` models the
base64-encoded HMAC-SHA256 of (secret, body). -/
def postHandler (hmacB64 : String → String → String) (secret : String)
    (sig : Option String) (body : String) (env : Env) (st : State) :
    Nat × State × List Access :=
  match sig with
  | none => (400, st, [])
  | some s =>
    if s ≠ hmacB64 secret body then (403, st, [])
    else
      let users := st.tokens.map (·.1)
      if users.isEmpty then (200, st, [.readTokens])
      else
        let p := processUsers env users st
        (200, p.1, .readTokens :: p.2)

end OAuthIngest

/-! ## Theorems -/

/-! ### Invariant helper lemmas for the analyze pipeline -/

lemma recordInvariant_of_ne (d : Dream) (h1 : d.status ≠ .complete)
    (h2 : d.status ≠ .failed) (h3 : d.processingAttempts ≤ 3) :
    recordInvariant d :=
  ⟨h3, fun hc => absurd hc h1, fun hf => absurd hf h2⟩

lemma recordInvariant_failWith (d : Dream) (msg : String)
    (h : d.processingAttempts ≤ 3) :
    recordInvariant (Analyze.failWith d msg) := by
  refine ⟨h, ?_, ?_⟩ <;> simp [Analyze.failWith]

lemma recordInvariantCore_of_inv (d : Dream) (h : recordInvariant d) :
    recordInvariantCore d :=
  ⟨h.1, fun hc => (h.2.1 hc).1, h.2.2⟩

lemma recordInvariantCore_failWith (d : Dream) (msg : String)
    (h : d.processingAttempts ≤ 3) :
    recordInvariantCore (Analyze.failWith d msg) := by
  refine ⟨h, ?_, ?_⟩ <;> simp [Analyze.failWith]

lemma analysisPhase_core_inv (env : Analyze.Env) (d : Dream)
    (hA : d.processingAttempts ≤ 3) (hT : d.transcript.isSome) :
    ∀ r, Analyze.Event.write r ∈ (Analyze.analysisPhase env d).events →
      recordInvariantCore r := by
  intro r hr
  unfold Analyze.analysisPhase at hr
  split at hr
  · simp only [List.mem_cons, List.not_mem_nil, or_false] at hr
    rcases hr with hr | hr
    · exact absurd hr (by simp)
    · cases hr
      exact recordInvariantCore_failWith d _ hA
  · split at hr
    next heq =>
      simp only [List.mem_cons, List.not_mem_nil, or_false] at hr
      rcases hr with hr | hr
      · exact absurd hr (by simp)
      · cases hr
        exact recordInvariantCore_failWith d _ hA
    next heq =>
      simp only [List.mem_cons, List.not_mem_nil, or_false] at hr
      rcases hr with hr | hr | hr | hr
      · exact absurd hr (by simp)
      · exact absurd hr (by simp)
      · cases hr
        exact ⟨hA, fun _ => hT, by simp⟩
      · cases hr
        exact recordInvariantCore_failWith _ _ hA
    next a heq =>
      simp only [List.mem_cons, List.not_mem_nil, or_false] at hr
      rcases hr with hr | hr | hr
      · exact absurd hr (by simp)
      · exact absurd hr (by simp)
      · cases hr
        exact ⟨hA, fun _ => hT, by simp⟩

lemma analysisPhase_full_inv (env : Analyze.Env) (d : Dream)
    (hA : d.processingAttempts ≤ 3) (hT : d.transcript.isSome)
    (hne : extractAnalysisJson env.generationBody ≠ some Json.null) :
    ∀ r, Analyze.Event.write r ∈ (Analyze.analysisPhase env d).events →
      recordInvariant r := by
  intro r hr
  unfold Analyze.analysisPhase at hr
  split at hr
  · simp only [List.mem_cons, List.not_mem_nil, or_false] at hr
    rcases hr with hr | hr
    · exact absurd hr (by simp)
    · cases hr
      exact recordInvariant_failWith d _ hA
  · split at hr
    next heq =>
      simp only [List.mem_cons, List.not_mem_nil, or_false] at hr
      rcases hr with hr | hr
      · exact absurd hr (by simp)
      · cases hr
        exact recordInvariant_failWith d _ hA
    next heq =>
      exact absurd heq hne
    next a heq =>
      simp only [List.mem_cons, List.not_mem_nil, or_false] at hr
      rcases hr with hr | hr | hr
      · exact absurd hr (by simp)
      · exact absurd hr (by simp)
      · cases hr
        exact ⟨hA, fun _ => ⟨hT, by simp⟩, by simp⟩

lemma transcriptionPhase_inv_aux (env : Analyze.Env) (d : Dream)
    (P : Dream → Prop) (hA : d.processingAttempts ≤ 3)
    (hP : ∀ x, recordInvariant x → P x)
    (hTail : ∀ x : Dream, x.processingAttempts ≤ 3 → x.transcript.isSome →
      ∀ r, Analyze.Event.write r ∈ (Analyze.analysisPhase env x).events → P r) :
    ∀ r, Analyze.Event.write r ∈ (Analyze.transcriptionPhase env d).events → P r := by
  intro r hr
  unfold Analyze.transcriptionPhase at hr
  split at hr
  case _ t ht =>
    exact hTail d hA (by simp [ht]) r hr
  case _ ht =>
    have hd2 : recordInvariant { d with status := .transcribing } :=
      recordInvariant_of_ne _ (by simp) (by simp) hA
    split at hr
    · simp only [List.mem_append, List.mem_cons, List.not_mem_nil, or_false] at hr
      rcases hr with (hr | hr) | hr
      · cases hr; exact hP _ hd2
      · exact absurd hr (by simp)
      · cases hr; exact hP _ (recordInvariant_failWith _ _ hA)
    · split at hr
      · simp only [List.mem_append, List.mem_cons, List.not_mem_nil, or_false] at hr
        rcases hr with (hr | hr) | hr
        · cases hr; exact hP _ hd2
        · exact absurd hr (by simp)
        · cases hr; exact hP _ (recordInvariant_failWith _ _ hA)
      · split at hr
        · simp only [List.mem_append, List.mem_cons, List.not_mem_nil, or_false] at hr
          rcases hr with (hr | hr) | hr | hr
          · cases hr; exact hP _ hd2
          · exact absurd hr (by simp)
          · exact absurd hr (by simp)
          · cases hr; exact hP _ (recordInvariant_failWith _ _ hA)
        · split at hr
          · simp only [List.mem_append, List.mem_cons, List.not_mem_nil, or_false] at hr
            rcases hr with (hr | hr) | hr | hr
            · cases hr; exact hP _ hd2
            · exact absurd hr (by simp)
            · exact absurd hr (by simp)
            · cases hr; exact hP _ (recordInvariant_failWith _ _ hA)
          · simp only [Analyze.Outcome.mk.injEq, List.mem_append, List.mem_cons,
              List.not_mem_nil, or_false] at hr
            rcases hr with ((hr | hr) | hr | hr) | hr
            · cases hr; exact hP _ hd2
            · exact absurd hr (by simp)
            · exact absurd hr (by simp)
            · cases hr
              exact hP _ (recordInvariant_of_ne _ (by simp) (by simp) hA)
            · refine hTail _ ?_ ?_ r hr
              · exact hA
              · simp

/-- C1: the pipeline entry point applies the guard before any work — an
already-`complete` record is a no-op success with no writes and no calls;
a record whose attempt counter has reached the max of 3 transitions
directly to `failed` with no external-service call; otherwise the very
first event is the write that increments the attempt counter (and sets
the status), before any external call. -/
theorem claim_C1_entry_guard (env : Analyze.Env) (dream : Dream) :
    (dream.status = .complete →
      Analyze.analyzeDream env dream = ⟨200, []⟩)
    ∧ (dream.status ≠ .complete → 3 ≤ dream.processingAttempts →
        Analyze.analyzeDream env dream =
          ⟨429, [.write (Analyze.failWith dream "Maximum processing attempts exceeded")]⟩
        ∧ ∀ s, Analyze.Event.call s ∉ (Analyze.analyzeDream env dream).events)
    ∧ (dream.status ≠ .complete → dream.processingAttempts < 3 →
        (Analyze.analyzeDream env dream).events.head? =
          some (.write { dream with
            status := .analyzing,
            processingAttempts := dream.processingAttempts + 1 })) := by
  refine ⟨fun hc => ?_, fun hc hm => ?_, fun hc hm => ?_⟩
  · simp [Analyze.analyzeDream, hc]
  · constructor
    · simp [Analyze.analyzeDream, hc, hm]
    · intro s
      simp [Analyze.analyzeDream, hc, hm]
  · simp [Analyze.analyzeDream, hc, Nat.not_le.mpr hm]

lemma analyzeDream_inv_aux (env : Analyze.Env) (dream : Dream)
    (P : Dream → Prop) (hinv : recordInvariant dream)
    (hP : ∀ x, recordInvariant x → P x)
    (hTail : ∀ x : Dream, x.processingAttempts ≤ 3 → x.transcript.isSome →
      ∀ r, Analyze.Event.write r ∈ (Analyze.analysisPhase env x).events → P r) :
    ∀ r, Analyze.Event.write r ∈ (Analyze.analyzeDream env dream).events → P r := by
  intro r hr
  unfold Analyze.analyzeDream at hr
  split at hr
  · simp at hr
  · split at hr
    · simp only [List.mem_cons, List.not_mem_nil, or_false] at hr
      cases hr
      exact hP _ (recordInvariant_failWith _ _ hinv.1)
    case _ hc hm =>
      have hlt : dream.processingAttempts < 3 := Nat.not_le.mp hm
      have hA : dream.processingAttempts + 1 ≤ 3 := hlt
      simp only [List.mem_cons] at hr
      rcases hr with hr | hr
      · cases hr
        exact hP _ (recordInvariant_of_ne _ (by simp) (by simp) hA)
      · split at hr
        · simp only [List.mem_cons, List.not_mem_nil, or_false] at hr
          cases hr
          exact hP _ (recordInvariant_failWith _ _ hA)
        · exact transcriptionPhase_inv_aux env _ P hA hP hTail r hr

/-- C5 (amended): every store write performed by the pipeline handler
keeps the attempt counter ≤ 3, `complete` ⇒ non-null transcript, and
`failed` ⇒ non-null error detail; and whenever the generation response
does not parse to the JSON literal `null`, the full Record invariants —
including `complete` ⇒ non-null analysis — are preserved.  (When the
response parses to JSON null, the code marks the row `complete` with a
SQL NULL analysis: see the counterexample.) -/
theorem claim_C5_record_invariants (env : Analyze.Env) (dream : Dream)
    (hinv : recordInvariant dream) :
    (∀ r, Analyze.Event.write r ∈ (Analyze.analyzeDream env dream).events →
      recordInvariantCore r)
    ∧ (extractAnalysisJson env.generationBody ≠ some Json.null →
        ∀ r, Analyze.Event.write r ∈ (Analyze.analyzeDream env dream).events →
          recordInvariant r) :=
  ⟨analyzeDream_inv_aux env dream recordInvariantCore hinv
      recordInvariantCore_of_inv
      (fun x hx ht => analysisPhase_core_inv env x hx ht),
   fun hne =>
    analyzeDream_inv_aux env dream recordInvariant hinv (fun _ h => h)
      (fun x hx ht => analysisPhase_full_inv env x hx ht hne)⟩

/-! ### Concrete sample inputs used by the witnesses below -/

def sampleEnv : Analyze.Env where
  hasOpenRouterKey := true
  hasOpenAIKey := true
  downloadOk := true
  transcribeOk := true
  transcribeText := "i dreamed of water and fire"
  generationOk := true
  generationBody := "\x7b\"themes\": [\"water\"]\x7d"
  embeddingOk := true
  embeddingVec := [1, 0]

def dreamBase : Dream where
  userId := none
  audioPath := "a.m4a"
  dropboxPath := some "/a.m4a"
  dropboxModifiedTime := none
  source := "dropbox"
  transcript := none
  analysis := none
  embedding := none
  status := .uploaded
  errorMessage := none
  processingAttempts := 0

/-- Witness for C1 at concrete records: an already-complete record, a
record at the attempt cap, and a fresh record. -/
theorem claim_C1_entry_guard_witness :
    Analyze.analyzeDream sampleEnv { dreamBase with status := .complete } = ⟨200, []⟩
    ∧ Analyze.analyzeDream sampleEnv { dreamBase with processingAttempts := 3 } =
        ⟨429, [.write (Analyze.failWith { dreamBase with processingAttempts := 3 }
          "Maximum processing attempts exceeded")]⟩
    ∧ (Analyze.analyzeDream sampleEnv dreamBase).events.head? =
        some (.write { dreamBase with status := .analyzing, processingAttempts := 1 }) :=
  ⟨(claim_C1_entry_guard sampleEnv _).1 rfl,
   ((claim_C1_entry_guard sampleEnv _).2.1 (by decide) (by decide)).1,
   (claim_C1_entry_guard sampleEnv _).2.2 (by decide) (by decide)⟩

/-- Witness for the amended C5: the increment write of a fresh record
satisfies the core invariants, and — since the sample generation body
parses to a JSON object, not the JSON literal null — the full
invariants. -/
theorem claim_C5_record_invariants_witness :
    recordInvariantCore { dreamBase with status := .analyzing, processingAttempts := 1 }
    ∧ recordInvariant { dreamBase with status := .analyzing, processingAttempts := 1 } :=
  ⟨(claim_C5_record_invariants sampleEnv dreamBase
      (by refine ⟨?_, ?_, ?_⟩ <;> simp [dreamBase, recordInvariant])).1
      { dreamBase with status := .analyzing, processingAttempts := 1 }
      (List.mem_cons_self _ _),
   (claim_C5_record_invariants sampleEnv dreamBase
      (by refine ⟨?_, ?_, ?_⟩ <;> simp [dreamBase, recordInvariant])).2
      (by
        intro h
        have he : extractAnalysisJson sampleEnv.generationBody =
            some (Json.obj [("themes", Json.arr [Json.str "water"])]) := rfl
        rw [he] at h
        simp at h)
      { dreamBase with status := .analyzing, processingAttempts := 1 }
      (List.mem_cons_self _ _)⟩

/-- C6: `getValidAccessToken` refreshes exactly when the stored expiry is
within 5 minutes of now — a 6-minute or null expiry is returned as-is;
within the window, a missing refresh token or a rejected exchange fails
requiring reauthorization, and an accepted exchange replaces the token
row; with no stored credential the call fails. -/
theorem claim_C6_refresh_threshold (now : Int) (tr : TokenRecord)
    (grant : Option RefreshGrant) :
    (getValidAccessToken none now grant =
      (.error "No Dropbox token found. User needs to reauthorize.", false, none))
    ∧ (tr.expiresAt = some (now + 6 * 60 * 1000) →
        getValidAccessToken (some tr) now grant = (.ok tr.accessToken, false, none))
    ∧ (tr.expiresAt = none →
        getValidAccessToken (some tr) now grant = (.ok tr.accessToken, false, none))
    ∧ (∀ e, tr.expiresAt = some e → e ≤ now + 5 * 60 * 1000 →
        (tr.refreshToken = none →
          getValidAccessToken (some tr) now grant =
            (.error "Token expired and no refresh token available. User needs to reauthorize.",
              false, none))
        ∧ (∀ rt, tr.refreshToken = some rt → grant = none →
            getValidAccessToken (some tr) now grant =
              (.error "Failed to refresh token. User needs to reauthorize.", true, none))
        ∧ (∀ rt g, tr.refreshToken = some rt → grant = some g →
            getValidAccessToken (some tr) now grant =
              (.ok g.accessToken, true, some
                { accessToken := g.accessToken
                  refreshToken := match g.refreshToken with
                    | some r => some r
                    | none => some rt
                  expiresAt := g.expiresIn.map fun s => now + s * 1000 })))
    ∧ ((getValidAccessToken (some tr) now grant).2.1 = true ↔
        (∃ e, tr.expiresAt = some e ∧ e ≤ now + 5 * 60 * 1000) ∧ tr.refreshToken ≠ none) := by
  refine ⟨rfl, ?_, ?_, ?_, ?_⟩
  · intro h
    have : ¬ (now + 6 * 60 * 1000 ≤ now + 5 * 60 * 1000) := by omega
    simp [getValidAccessToken, h, this]
  · intro h
    simp [getValidAccessToken, h]
  · intro e he hle
    refine ⟨?_, ?_, ?_⟩
    · intro hrt
      simp [getValidAccessToken, he, hle, hrt]
      omega
    · intro rt hrt hg
      simp [getValidAccessToken, he, hle, hrt, hg]
      omega
    · intro rt g hrt hg
      simp [getValidAccessToken, he, hle, hrt, hg]
      omega
  · constructor
    · intro h
      obtain ⟨atk, rtk, exk⟩ := tr
      rcases exk with _ | e
      · simp [getValidAccessToken] at h
      · by_cases hle : e ≤ now + 5 * 60 * 1000
        · rcases rtk with _ | rt
          · simp [getValidAccessToken, hle,
              show ¬ (now + 300000 < e) from by omega] at h
          · exact ⟨⟨e, rfl, hle⟩, by simp⟩
        · simp [getValidAccessToken, hle,
            show now + 300000 < e from by omega] at h
    · rintro ⟨⟨e, he, hle⟩, hrt⟩
      rcases hr : tr.refreshToken with _ | rt
      · exact absurd hr hrt
      · rcases grant with _ | g
        · simp [getValidAccessToken, he, hle, hr,
            show ¬ (now + 300000 < e) from by omega]
        · simp [getValidAccessToken, he, hle, hr,
            show ¬ (now + 300000 < e) from by omega]

/-- A token row expiring 4 minutes after epoch 0, with a refresh token. -/
def tok4 : TokenRecord := ⟨"old", some "r", some 240000⟩

/-- A token row expiring 6 minutes after epoch 0. -/
def tok6 : TokenRecord := ⟨"old", some "r", some 360000⟩

/-- A granted refresh exchange: new access token, 4-hour validity. -/
def grant4 : RefreshGrant := ⟨"new", none, some 14400⟩

/-- Witness for C6: with no stored row the call fails; a row expiring in
4 minutes with a refresh token is refreshed through a granted exchange;
a row expiring in 6 minutes is returned as-is. -/
theorem claim_C6_refresh_threshold_witness :
    (getValidAccessToken none 0 none =
      (.error "No Dropbox token found. User needs to reauthorize.", false, none))
    ∧ getValidAccessToken (some tok4) 0 (some grant4) =
        (.ok "new", true, some ⟨"new", some "r", some 14400000⟩)
    ∧ getValidAccessToken (some tok6) 0 none = (.ok "old", false, none) :=
  ⟨(claim_C6_refresh_threshold 0 tok4 none).1,
   by
    have h := ((claim_C6_refresh_threshold 0 tok4 (some grant4)).2.2.2.1
      240000 rfl (by omega)).2.2 "r" grant4 rfl rfl
    rw [h]
    rfl,
   (claim_C6_refresh_threshold 0 tok6 none).2.1 rfl⟩

/-- C7 counterexample: on the body `{"a": 1} }` the spec's two-stage
procedure (strict parse, then outermost balanced span) succeeds, while the
implemented extraction selects the greedy first-`{`-to-last-`}` span,
whose strict parse fails — so extraction is not the claimed two-stage
parsing. -/
theorem claim_C7_counterexample :
    jsonParse "\x7b\"a\": 1\x7d \x7d" = none
    ∧ (specTwoStageExtract "\x7b\"a\": 1\x7d \x7d").isSome = true
    ∧ extractAnalysisJson "\x7b\"a\": 1\x7d \x7d" = none :=
  ⟨rfl, rfl, rfl⟩

/-- C7 (amended): extraction selects a fenced ```json block, else the
greedy span from the first `{` to the last `}`, else the whole body, and
strict-parses the selected substring once; whenever that single parse
fails, the pipeline treats it as a parse failure — the record transitions
to `failed` with error detail and no partial analysis is stored. -/
theorem claim_C7_parse_failure (env : Analyze.Env) (dream : Dream) (t : String)
    (hc : dream.status ≠ .complete) (hm : dream.processingAttempts < 3)
    (hk : env.hasOpenRouterKey = true) (ht : dream.transcript = some t)
    (hg : env.generationOk = true)
    (hp : extractAnalysisJson env.generationBody = none) :
    Analyze.analyzeDream env dream =
      ⟨500,
        [.write { dream with
            status := .analyzing,
            processingAttempts := dream.processingAttempts + 1 },
         .call .generation,
         .write (Analyze.failWith { dream with
            status := .analyzing,
            processingAttempts := dream.processingAttempts + 1 }
           "Analysis failed: Failed to parse analysis result")]⟩
    ∧ (Analyze.failWith { dream with
          status := .analyzing,
          processingAttempts := dream.processingAttempts + 1 }
        "Analysis failed: Failed to parse analysis result").analysis = dream.analysis := by
  constructor
  · simp [Analyze.analyzeDream, Analyze.transcriptionPhase, Analyze.analysisPhase,
      hc, Nat.not_le.mpr hm, hk, ht, hg, hp]
  · simp [Analyze.failWith]

def badBodyEnv : Analyze.Env := { sampleEnv with generationBody := "\x7b\"a\": 1\x7d \x7d" }

def dreamWithTranscript : Dream := { dreamBase with transcript := some "t" }

/-- Witness for the amended C7 at the concrete unparseable body. -/
theorem claim_C7_parse_failure_witness :
    Analyze.analyzeDream badBodyEnv dreamWithTranscript =
      ⟨500,
        [.write { dreamWithTranscript with status := .analyzing, processingAttempts := 1 },
         .call .generation,
         .write (Analyze.failWith
           { dreamWithTranscript with status := .analyzing, processingAttempts := 1 }
           "Analysis failed: Failed to parse analysis result")]⟩ :=
  (claim_C7_parse_failure badBodyEnv dreamWithTranscript "t"
    (by decide) (by decide) rfl rfl rfl rfl).1

def nullBodyEnv : Analyze.Env := { sampleEnv with generationBody := "```json\nnull\n```" }

def dCompleteNull : Dream :=
  { dreamWithTranscript with
    status := .complete
    processingAttempts := 1
    analysis := none
    embedding := some [1, 0] }

/-- C5 counterexample: when the generation response body is a fenced JSON
`null`, extraction succeeds with the JSON literal null and the handler
marks the record `complete` while storing a SQL NULL analysis — a
pipeline write that violates the claimed invariant (the row is only
afterwards flipped to `failed` when the motif update crashes on the null
document). -/
theorem claim_C5_counterexample :
    recordInvariant dreamWithTranscript
    ∧ extractAnalysisJson nullBodyEnv.generationBody = some Json.null
    ∧ (Analyze.analyzeDream nullBodyEnv dreamWithTranscript).events[3]? =
        some (.write dCompleteNull)
    ∧ dCompleteNull.status = .complete
    ∧ dCompleteNull.transcript.isSome = true
    ∧ dCompleteNull.analysis = none
    ∧ ¬ recordInvariant dCompleteNull := by
  refine ⟨?_, rfl, rfl, rfl, rfl, rfl, ?_⟩
  · refine ⟨?_, ?_, ?_⟩ <;> simp [dreamWithTranscript, dreamBase, recordInvariant]
  · intro h
    simpa [dCompleteNull, dreamWithTranscript, dreamBase] using (h.2.1 rfl).2

/-! ### Sample webhook-handler inputs -/

def legacyEnvSample : LegacyIngest.Env where
  listOk := true
  listEntries := []
  listCursor := "c0"
  continueOk := true
  continueEntries := []
  continueCursor := "c1"
  downloadOk := fun _ => true
  uploadOk := fun _ => true
  insertOk := fun _ => true
  blobName := fun e => e.name

def legacyStateEmpty : LegacyIngest.State where
  dreams := []
  blobs := []
  cursor := none

def oauthEnvSample : OAuthIngest.Env where
  now := 0
  refreshGrant := fun _ => none
  latestCursorOk := fun _ => true
  latestCursor := fun _ => "base"
  continueOk := fun _ => true
  continueEntries := fun _ => []
  continueCursor := fun _ => "next"
  downloadOk := fun _ => true
  uploadOk := fun _ => true
  insertOk := fun _ => true
  blobName := fun e => e.name

def oauthStateSample : OAuthIngest.State where
  tokens := [("u1", ⟨"tok", none, none⟩)]
  cursors := []
  dreams := []
  blobs := []

/-- C4 counterexample: the legacy handler, with an app secret configured
but no `x-dropbox-signature` header on the request, skips verification
entirely — the request is processed with status 200 and the stored cursor
is mutated, instead of the claimed hard 4xx rejection with zero state
change. -/
theorem claim_C4_counterexample :
    (LegacyIngest.postHandler (fun _ _ => "MAC") (some "secret") none "{}"
      legacyEnvSample legacyStateEmpty).1 = 200
    ∧ (LegacyIngest.postHandler (fun _ _ => "MAC") (some "secret") none "{}"
        legacyEnvSample legacyStateEmpty).2.cursor = some "c1"
    ∧ legacyStateEmpty.cursor = none :=
  ⟨rfl, rfl, rfl⟩

/-- C4 (amended): the OAuth webhook handler rejects a missing signature
header with 400 and a mismatching signature with 403, in both cases
before any stored state is read or mutated (empty access log, unchanged
state); the legacy handler only verifies when both a secret is
configured and a header is present. -/
theorem claim_C4_signature_gate (hmacB64 : String → String → String)
    (secret body : String) (sig : Option String) (env : OAuthIngest.Env)
    (st : OAuthIngest.State) :
    (sig = none →
      OAuthIngest.postHandler hmacB64 secret sig body env st = (400, st, []))
    ∧ (∀ s, sig = some s → s ≠ hmacB64 secret body →
        OAuthIngest.postHandler hmacB64 secret sig body env st = (403, st, [])) := by
  constructor
  · rintro rfl
    rfl
  · rintro s rfl hne
    simp [OAuthIngest.postHandler, hne]

/-- Witness for the amended C4: a missing header and a tampered signature
on concrete state. -/
theorem claim_C4_signature_gate_witness :
    OAuthIngest.postHandler (fun _ _ => "MAC") "secret" none "{}"
      oauthEnvSample oauthStateSample = (400, oauthStateSample, [])
    ∧ OAuthIngest.postHandler (fun _ _ => "MAC") "secret" (some "BAD") "{}"
        oauthEnvSample oauthStateSample = (403, oauthStateSample, []) :=
  ⟨(claim_C4_signature_gate (fun _ _ => "MAC") "secret" "{}" none
      oauthEnvSample oauthStateSample).1 rfl,
   (claim_C4_signature_gate (fun _ _ => "MAC") "secret" "{}" (some "BAD")
      oauthEnvSample oauthStateSample).2 "BAD" rfl (by decide)⟩

/-! ### State-threading lemmas for the OAuth sync -/

lemma vaultAccess_cursors (env : OAuthIngest.Env) (u : String)
    (st : OAuthIngest.State) :
    ∀ res st' log, OAuthIngest.vaultAccess env u st = (res, st', log) →
      st'.cursors = st.cursors ∧ st'.dreams = st.dreams := by
  intro res st' log h
  unfold OAuthIngest.vaultAccess at h
  split at h <;> (cases h; simp)

lemma processNewAudioFile_cursors (env : OAuthIngest.Env) (u : String)
    (e : Entry) (st : OAuthIngest.State) :
    (OAuthIngest.processNewAudioFile env u e st).1.cursors = st.cursors := by
  unfold OAuthIngest.processNewAudioFile
  split
  next d heq => simp
  next heq =>
    split
    next err st1 log1 heq2 =>
      simpa using (vaultAccess_cursors env u st _ _ _ heq2).1
    next tok st1 log1 heq2 =>
      have h1 := (vaultAccess_cursors env u st _ _ _ heq2).1
      repeat' split
      all_goals simpa using h1

lemma processEntries_cursors (env : OAuthIngest.Env) (u : String) :
    ∀ (es : List Entry) (st : OAuthIngest.State),
      (OAuthIngest.processEntries env u es st).1.cursors = st.cursors := by
  intro es
  induction es with
  | nil => intro st; rfl
  | cons e es ih =>
    intro st
    unfold OAuthIngest.processEntries
    split
    · show (OAuthIngest.processEntries env u es
        (OAuthIngest.processNewAudioFile env u e st).1).1.cursors = st.cursors
      rw [ih, processNewAudioFile_cursors]
    · exact ih st

lemma find?_map_setEntry {α : Type} (k : String) (v : α) :
    ∀ (l : List (String × α)), l.any (fun p => p.1 == k) = true →
      ((l.map fun p => if p.1 == k then (k, v) else p).find? fun p => p.1 == k) =
        some (k, v) := by
  intro l
  induction l with
  | nil => intro h; simp at h
  | cons p t ih =>
    intro h
    by_cases hp : (p.1 == k) = true
    · simp only [List.map_cons, hp, if_true]
      rw [List.find?_cons_of_pos _ (by simp)]
    · have hp' : (p.1 == k) = false := by simpa using hp
      have ht : t.any (fun q => q.1 == k) = true := by
        simp only [List.any_cons, hp', Bool.false_or] at h
        exact h
      simp only [List.map_cons, hp']
      rw [if_neg (by simp)]
      rw [List.find?_cons_of_neg _ (by simp [hp'])]
      exact ih ht

lemma lookup_setEntry {α : Type} (l : List (String × α)) (k : String) (v : α) :
    OAuthIngest.lookup (OAuthIngest.setEntry l k v) k = some v := by
  unfold OAuthIngest.setEntry OAuthIngest.lookup
  by_cases h : l.any (fun p => p.1 == k) = true
  · rw [if_pos h, find?_map_setEntry k v l h]
    rfl
  · rw [if_neg h]
    have hnone : l.find? (fun p => p.1 == k) = none := by
      rw [List.find?_eq_none]
      intro x hx hpx
      exact h (List.any_eq_true.mpr ⟨x, hx, hpx⟩)
    simp [List.find?_append, hnone]

/-! ### Claims C3 and C8 — sync baseline and cursor persistence -/

def preexistingEntry : Entry := ⟨"file", "a.m4a", "/a.m4a", "2025-01-01T00:00:00Z"⟩

def legacyEnvPre : LegacyIngest.Env :=
  { legacyEnvSample with listEntries := [preexistingEntry] }

/-- C3 counterexample: the legacy sync, invoked with no stored cursor and
one pre-existing audio file in the account, creates a Record for that
file during cursor initialization — the first sync does not return zero
entries. -/
theorem claim_C3_counterexample :
    legacyStateEmpty.cursor = none
    ∧ (LegacyIngest.processDropboxChanges legacyEnvPre legacyStateEmpty).1.dreams =
        [LegacyIngest.dreamRecordFor preexistingEntry "a.m4a"]
    ∧ (LegacyIngest.processDropboxChanges legacyEnvPre legacyStateEmpty).2.2 = 1 :=
  ⟨rfl, rfl, rfl⟩

/-- C3 (amended): in the OAuth per-user sync, a user with no stored
cursor gets a baseline cursor fetched and persisted while no entry is
processed and no Record is created (the returned state differs from the
input only in the stored cursor, and the access log shows no download or
insert); a later sync with a stored cursor and one new audio file intakes
exactly that file and advances the cursor.  The legacy single-cursor sync
instead also processes pre-existing audio files while initializing. -/
theorem claim_C3_cursor_baseline (env : OAuthIngest.Env) (u : String)
    (st : OAuthIngest.State) (tok : String)
    (hv : OAuthIngest.vaultAccess env u st = (.ok tok, st, [.readTokens])) :
    (OAuthIngest.lookup st.cursors u = none → env.latestCursorOk u = true →
      OAuthIngest.processDropboxChanges env u st =
        ({ st with cursors := OAuthIngest.setEntry st.cursors u (env.latestCursor u) },
         [.readTokens, .readCursor u, .readTokens,
          .callLatestCursor u, .writeCursor u (env.latestCursor u)]))
    ∧ (∀ e c, OAuthIngest.lookup st.cursors u = some c →
        env.continueOk u = true → env.continueEntries u = [e] →
        e.tag = "file" → strEndsWith e.name ".m4a" = true →
        st.dreams.find? (OAuthIngest.dedupMatch u e.pathLower) = none →
        env.downloadOk e.pathLower = true →
        env.uploadOk (env.blobName e) = true →
        env.insertOk e.pathLower = true →
        (OAuthIngest.processDropboxChanges env u st).1.dreams =
          st.dreams ++ [OAuthIngest.dreamRecordFor e (env.blobName e)]
        ∧ OAuthIngest.lookup (OAuthIngest.processDropboxChanges env u st).1.cursors u =
            some (env.continueCursor u)) := by
  constructor
  · intro hcur hok
    simp [OAuthIngest.processDropboxChanges, hv, hcur, hok]
  · intro e c hcur hok hes htag hname hfind hdl hup hins
    have hmain : OAuthIngest.processDropboxChanges env u st =
        ({ { st with
              blobs := st.blobs ++ [env.blobName e]
              dreams := st.dreams ++ [OAuthIngest.dreamRecordFor e (env.blobName e)] } with
            cursors := OAuthIngest.setEntry st.cursors u (env.continueCursor u) },
         [.readTokens, .readCursor u, .readTokens, .callListContinue u,
          .readDreams u, .readTokens, .callDownload e.pathLower,
          .writeBlob (env.blobName e), .insertDream e.pathLower,
          .callAnalyzeTrigger e.pathLower,
          .writeCursor u (env.continueCursor u)]) := by
      simp [OAuthIngest.processDropboxChanges, OAuthIngest.processEntries,
        OAuthIngest.processNewAudioFile, hv, hcur, hok, hes, htag, hname,
        hfind, hdl, hup, hins]
    rw [hmain]
    exact ⟨rfl, lookup_setEntry st.cursors u (env.continueCursor u)⟩

def newEntry : Entry := ⟨"file", "dream.m4a", "/dream.m4a", "2025-06-01T00:00:00Z"⟩

def oauthStateCur : OAuthIngest.State := { oauthStateSample with cursors := [("u1", "cur0")] }

def oauthEnvNewFile : OAuthIngest.Env :=
  { oauthEnvSample with continueEntries := fun _ => [newEntry] }

/-- Witness for the amended C3: a baseline init on a cursor-less user, and
a later sync that picks up exactly the one new file. -/
theorem claim_C3_cursor_baseline_witness :
    OAuthIngest.processDropboxChanges oauthEnvSample "u1" oauthStateSample =
      ({ oauthStateSample with cursors := [("u1", "base")] },
       [.readTokens, .readCursor "u1", .readTokens,
        .callLatestCursor "u1", .writeCursor "u1" "base"])
    ∧ (OAuthIngest.processDropboxChanges oauthEnvNewFile "u1" oauthStateCur).1.dreams =
        [OAuthIngest.dreamRecordFor newEntry "dream.m4a"]
    ∧ OAuthIngest.lookup
        (OAuthIngest.processDropboxChanges oauthEnvNewFile "u1" oauthStateCur).1.cursors
        "u1" = some "next" :=
  ⟨(claim_C3_cursor_baseline oauthEnvSample "u1" oauthStateSample "tok" rfl).1 rfl rfl,
   ((claim_C3_cursor_baseline oauthEnvNewFile "u1" oauthStateCur "tok" rfl).2
      newEntry "cur0" rfl rfl rfl rfl rfl rfl rfl rfl rfl).1,
   ((claim_C3_cursor_baseline oauthEnvNewFile "u1" oauthStateCur "tok" rfl).2
      newEntry "cur0" rfl rfl rfl rfl rfl rfl rfl rfl rfl).2⟩

def legacyStateCur : LegacyIngest.State := { legacyStateEmpty with cursor := some "cur0" }

def legacyEnvBad : LegacyIngest.Env :=
  { legacyEnvSample with
      continueEntries := [preexistingEntry]
      downloadOk := fun _ => false }

/-- C8 counterexample: in the legacy sync a failing file download
rethrows out of the entry loop, so even though the change-list call for
the page succeeded (and reported cursor `c1`), the stored cursor is not
advanced — a single bad file does prevent the cursor from advancing. -/
theorem claim_C8_counterexample :
    legacyEnvBad.continueOk = true
    ∧ legacyEnvBad.continueCursor = "c1"
    ∧ (LegacyIngest.processDropboxChanges legacyEnvBad legacyStateCur).1.cursor = some "cur0"
    ∧ (LegacyIngest.processDropboxChanges legacyEnvBad legacyStateCur).2.1 =
        some "Failed to download file" :=
  ⟨rfl, rfl, rfl, rfl⟩

/-- C8 (amended): in the OAuth per-user sync, a successful non-empty
change page always gets its cursor persisted, regardless of the per-file
outcomes (downloads, blob writes and inserts may all fail — per-file
errors are swallowed); a successful but empty page returns before the
cursor update, leaving the stored cursor unchanged.  In the legacy sync a
per-file failure propagates and prevents the cursor write. -/
theorem claim_C8_cursor_persistence (env : OAuthIngest.Env) (u : String)
    (st : OAuthIngest.State) (tok c : String)
    (hv : OAuthIngest.vaultAccess env u st = (.ok tok, st, [.readTokens]))
    (hc : OAuthIngest.lookup st.cursors u = some c)
    (hok : env.continueOk u = true) :
    (env.continueEntries u ≠ [] →
      OAuthIngest.lookup (OAuthIngest.processDropboxChanges env u st).1.cursors u =
        some (env.continueCursor u))
    ∧ (env.continueEntries u = [] →
        OAuthIngest.processDropboxChanges env u st =
          (st, [.readTokens, .readCursor u, .readTokens, .callListContinue u])) := by
  constructor
  · intro hne
    have hE : (env.continueEntries u).isEmpty = false := by
      cases hE2 : env.continueEntries u with
      | nil => exact absurd hE2 hne
      | cons a l => rfl
    simp only [OAuthIngest.processDropboxChanges, hv, hc, hok]
    simp only [hE, Bool.not_true, Bool.false_eq_true, if_false]
    exact lookup_setEntry _ u (env.continueCursor u)
  · intro hE
    simp [OAuthIngest.processDropboxChanges, hv, hc, hok, hE]

def oauthEnvBadFile : OAuthIngest.Env :=
  { oauthEnvNewFile with downloadOk := fun _ => false }

/-- Witness for the amended C8: a page with one file whose download fails
still advances the cursor; an empty page leaves it unchanged. -/
theorem claim_C8_cursor_persistence_witness :
    OAuthIngest.lookup
      (OAuthIngest.processDropboxChanges oauthEnvBadFile "u1" oauthStateCur).1.cursors
      "u1" = some "next"
    ∧ OAuthIngest.processDropboxChanges oauthEnvSample "u1" oauthStateCur =
        (oauthStateCur,
         [.readTokens, .readCursor "u1", .readTokens, .callListContinue "u1"]) :=
  ⟨(claim_C8_cursor_persistence oauthEnvBadFile "u1" oauthStateCur "tok" "cur0"
      rfl rfl rfl).1 (by decide),
   (claim_C8_cursor_persistence oauthEnvSample "u1" oauthStateCur "tok" "cur0"
      rfl rfl rfl).2 rfl⟩

/-! ### Claims C2 and C10 — intake idempotency and the null owner -/

/-- C2: evaluation of the OAuth intake at the failing input.  The first
delivery of `/dream.m4a` for user `u1` creates a Record whose owner is
null; because the duplicate check filters on `user_id = 'u1'` while the
insert stored `user_id = null`, the second delivery of the very same
(user, path) pair misses the existing Record, downloads the file again
and inserts a second Record — intake is not idempotent. -/
theorem claim_C2_duplicate_insert :
    (OAuthIngest.processNewAudioFile oauthEnvSample "u1" newEntry oauthStateSample).1.dreams =
      [OAuthIngest.dreamRecordFor newEntry "dream.m4a"]
    ∧ ((OAuthIngest.processNewAudioFile oauthEnvSample "u1" newEntry oauthStateSample).1.dreams.all
        fun d => !(OAuthIngest.dedupMatch "u1" "/dream.m4a" d)) = true
    ∧ (OAuthIngest.processNewAudioFile oauthEnvSample "u1" newEntry
        (OAuthIngest.processNewAudioFile oauthEnvSample "u1" newEntry oauthStateSample).1).1.dreams.length = 2
    ∧ OAuthIngest.Access.callDownload "/dream.m4a" ∈
        (OAuthIngest.processNewAudioFile oauthEnvSample "u1" newEntry
          (OAuthIngest.processNewAudioFile oauthEnvSample "u1" newEntry oauthStateSample).1).2 :=
  ⟨rfl, rfl, rfl, by decide⟩

/-- C10: every Record inserted by either intake variant carries a null
owning user, and consequently never matches the per-user duplicate check
for any user id. -/
theorem claim_C10_null_owner (e : Entry) (fn : String) :
    (OAuthIngest.dreamRecordFor e fn).userId = none
    ∧ (LegacyIngest.dreamRecordFor e fn).userId = none
    ∧ ∀ uid path : String,
        OAuthIngest.dedupMatch uid path (OAuthIngest.dreamRecordFor e fn) = false :=
  ⟨rfl, rfl, fun _ _ => rfl⟩

/-! ### Claim C9 — context selection -/

lemma selectRelevantDreams_eq (transcript : String) (allDreams : List PastDream)
    (now : Int) :
    selectRelevantDreams transcript allDreams now =
      ((scoredDreams transcript allDreams now).insertionSort byScoreDesc).take 3 := by
  unfold selectRelevantDreams scoredDreams
  split
  next h =>
    have : allDreams = [] := by simpa using h
    simp [this]
  next h => rfl

lemma filterActiveMotifs_eq (now : Int) (l : List Motif) :
    filterActiveMotifs now l =
      (l.filter fun m =>
        decide (now - 30 * 86400000 < m.lastSeen) && decide (1 ≤ m.count)).take 8 := by
  unfold filterActiveMotifs
  split
  next h =>
    have : l = [] := by simpa using h
    simp [this]
  next h => rfl

/-- C9: context selection is a pure function of the stored candidate rows,
the stored motifs, the new transcript and the current time.  Scores follow
`0.4·themeOverlap + 0.4·emotionOverlap + 0.2·recencyBonus` with overlaps
as shared-term fractions over the fixed vocabularies and
`recencyBonus = max(0, (30 − daysSince)/30)`; the kept slice is the top 3
by score in descending order and dominates every unselected candidate;
active motifs are the stored motifs last seen within 30 days with
count ≥ 1, in descending count order, capped at 8; repeated calls on
identical inputs return identical results. -/
theorem claim_C9_context_selection (transcript : String)
    (allDreams : List PastDream) (stored : List Motif) (now : Int) :
    (∀ d a, d.analysis = some a →
      scoreContextRelevance transcript d now =
        0.4 * (((intersection (extractKeywords transcript) a.themes).length : ℚ) /
            (max (max (extractKeywords transcript).length a.themes.length) 1 : ℚ))
        + 0.4 * (((intersection (extractEmotionalWords transcript) a.emotionsPrimary).length : ℚ) /
            (max (max (extractEmotionalWords transcript).length a.emotionsPrimary.length) 1 : ℚ))
        + 0.2 * max 0 ((30 - ((((now - d.createdAt).fdiv 86400000 : Int)) : ℚ)) / 30))
    ∧ (selectRelevantDreams transcript allDreams now).length ≤ 3
    ∧ (selectRelevantDreams transcript allDreams now).Pairwise byScoreDesc
    ∧ (∃ rest, (selectRelevantDreams transcript allDreams now ++ rest).Perm
          (scoredDreams transcript allDreams now)
        ∧ ∀ p ∈ selectRelevantDreams transcript allDreams now, ∀ q ∈ rest, q.2 ≤ p.2)
    ∧ (∀ m ∈ filterActiveMotifs now (motifQuery stored),
        now - 30 * 86400000 < m.lastSeen ∧ 1 ≤ m.count)
    ∧ (filterActiveMotifs now (motifQuery stored)).Pairwise byCountDesc
    ∧ (filterActiveMotifs now (motifQuery stored)).length ≤ 8
    ∧ (selectRelevantDreams transcript allDreams now =
          selectRelevantDreams transcript allDreams now
        ∧ filterActiveMotifs now (motifQuery stored) =
          filterActiveMotifs now (motifQuery stored)) := by
  have hsel := selectRelevantDreams_eq transcript allDreams now
  have hsort := List.sorted_insertionSort byScoreDesc (scoredDreams transcript allDreams now)
  have hsplit := List.take_append_drop 3
    ((scoredDreams transcript allDreams now).insertionSort byScoreDesc)
  refine ⟨?_, ?_, ?_, ?_, ?_, ?_, ?_, rfl, rfl⟩
  · intro d a ha
    simp only [scoreContextRelevance, ha]
    ring
  · rw [hsel]
    simp only [List.length_take]
    exact min_le_left _ _
  · rw [hsel]
    exact List.Pairwise.sublist (List.take_sublist _ _) hsort
  · refine ⟨((scoredDreams transcript allDreams now).insertionSort byScoreDesc).drop 3,
      ?_, ?_⟩
    · rw [hsel, hsplit]
      exact List.perm_insertionSort byScoreDesc _
    · rw [hsel]
      intro p hp q hq
      have h2 := hsort
      rw [← hsplit] at h2
      exact (List.pairwise_append.mp h2).2.2 p hp q hq
  · intro m hm
    rw [filterActiveMotifs_eq] at hm
    have hm2 := List.mem_filter.mp ((List.take_sublist _ _).subset hm)
    have hb := hm2.2
    rw [Bool.and_eq_true] at hb
    exact ⟨of_decide_eq_true hb.1, of_decide_eq_true hb.2⟩
  · rw [filterActiveMotifs_eq]
    have h0 := List.sorted_insertionSort byCountDesc stored
    have h2 : (motifQuery stored).Pairwise byCountDesc :=
      List.Pairwise.sublist (List.take_sublist _ _) h0
    exact List.Pairwise.sublist (List.take_sublist _ _)
      (List.Pairwise.sublist (List.filter_sublist _) h2)
  · rw [filterActiveMotifs_eq]
    simp only [List.length_take]
    exact min_le_left _ _

def pastA0 : PastAnalysis := ⟨["water"], ["scared"]⟩

def pastD0 : PastDream := ⟨some "earlier", some pastA0, 0⟩

def motif0 : Motif := ⟨"water", some "symbol", 3, 1, 0⟩

/-- Witness for C9 at a concrete transcript, candidate and motif. -/
theorem claim_C9_context_selection_witness :
    scoreContextRelevance "i saw water and felt scared" pastD0 0 =
      0.4 * (((intersection (extractKeywords "i saw water and felt scared")
            pastA0.themes).length : ℚ) /
          (max (max (extractKeywords "i saw water and felt scared").length
            pastA0.themes.length) 1 : ℚ))
      + 0.4 * (((intersection (extractEmotionalWords "i saw water and felt scared")
            pastA0.emotionsPrimary).length : ℚ) /
          (max (max (extractEmotionalWords "i saw water and felt scared").length
            pastA0.emotionsPrimary.length) 1 : ℚ))
      + 0.2 * max 0 ((30 - (((((0 : Int)) - pastD0.createdAt).fdiv 86400000 : Int) : ℚ)) / 30)
    ∧ ((0 : Int) - 30 * 86400000 < motif0.lastSeen ∧ 1 ≤ motif0.count) :=
  ⟨(claim_C9_context_selection "i saw water and felt scared" [pastD0] [motif0] 0).1
      pastD0 pastA0 rfl,
   (claim_C9_context_selection "i saw water and felt scared" [pastD0] [motif0] 0).2.2.2.2.1
      motif0 (by decide)⟩

end JaaS
